import Mathlib

/-!
Verification development for the BBMRI-cz/quality-checks repository.

Shallow embedding of the privacy-budgeted quality-check orchestration engine:

* `dp_utils.py`   — `add_laplace_noise`
* `df.py`         — `apply_differential_privacy`
* `report_utils.py` — the `QualityCheck` variants (`CQLQualityCheck`,
  `DuplicateIdentifierCheck`, `InvalidConditionICDCheck`,
  `InvalidSpecimenICDCheck`, `StalePatientCheck`) and the orchestrator
  `get_qc_results`.

Modelling conventions:

* Python floats are modelled as exact rationals (`ℚ`); the budget arithmetic
  the claims are about is simple addition and comparison.
* Fallible Python code (statements that can raise) is modelled in
  `Except PyError`; a `try/except` block is a total handler over that monad.
* The single Laplace draw `np.random.laplace(0, scale)` is modelled by an
  injectable standard draw `u : ℚ`, with the drawn noise being
  `loc + scale * u` (numpy rejects a negative `scale` with a `ValueError`;
  with `scale = 0` the draw degenerates to `loc`).
* Python dictionaries returned by checks are modelled by the `CheckResult`
  structure whose fields are `Option`-valued (a `none` field is an absent
  key); the orchestrator's `results` dictionary is an insertion-ordered
  association list with Python dict update semantics (`dictInsert`).
-/

namespace QC

/-- Kinds of Python exceptions that the embedded code can raise. -/
inductive PyError where
  | valueError (msg : String)
  | zeroDivisionError
  | nameError (nm : String)
  | remoteError (msg : String)
  | indexError
  deriving DecidableEq

/-- The `str(e)` rendering stored in an error result.  (For `NameError` on
`re` CPython renders the name in quotes; we omit the quotes.) -/
def PyError.message : PyError → String
  | .valueError m => m
  | .zeroDivisionError => "division by zero"
  | .nameError nm => "name " ++ nm ++ " is not defined"
  | .remoteError m => m
  | .indexError => "list index out of range"

/-- Python 3 `round`: round half to even (banker's rounding). -/
def pyRound (q : ℚ) : ℤ :=
  let f := ⌊q⌋
  let frac := q - f
  if frac < 1 / 2 then f
  else if 1 / 2 < frac then f + 1
  else if f % 2 = 0 then f else f + 1

/-- `np.random.laplace(loc, scale)`: raises `ValueError` when `scale < 0`,
otherwise draws `loc + scale * u` where `u` is the injected standard draw. -/
def np_random_laplace (loc scale u : ℚ) : Except PyError ℚ :=
  if scale < 0 then .error (.valueError "scale < 0") else .ok (loc + scale * u)

/-- `dp_utils.add_laplace_noise(count, epsilon, sensitivity=1)`:
`scale = sensitivity / epsilon` (raising `ZeroDivisionError` when
`epsilon = 0`), one Laplace draw, then `max(0, round(count + noise))`.
The source performs no validation of `epsilon`. -/
def add_laplace_noise (count : ℤ) (epsilon sensitivity u : ℚ) : Except PyError ℤ :=
  if epsilon = 0 then .error .zeroDivisionError
  else
    Except.bind (np_random_laplace 0 (sensitivity / epsilon) u) fun noise =>
    .ok (max 0 (pyRound ((count : ℚ) + noise)))

/-- `df.apply_differential_privacy(true_count, epsilon, clamp_min=0)`:
explicitly raises `ValueError` for `epsilon <= 0`, then draws Laplace noise
with scale `1 / epsilon` and returns `max(round(true_count + noise), clamp_min)`. -/
def apply_differential_privacy (true_count : ℤ) (epsilon : ℚ) (clamp_min : ℤ) (u : ℚ) :
    Except PyError ℤ :=
  if epsilon ≤ 0 then .error (.valueError "Epsilon must be > 0")
  else
    Except.bind (np_random_laplace 0 (1 / epsilon) u) fun noise =>
    .ok (max (pyRound ((true_count : ℚ) + noise)) clamp_min)

/-- Classifier: did the computation fail with an explicit
parameter-validation (`ValueError`) style error? -/
def isParamValidationError : Except PyError ℤ → Bool
  | .error (.valueError _) => true
  | _ => false

/-- The value stored under the `patientIds` key of a result dictionary:
either an actual Python list of subject references, or a plain string
(the native ICD / staleness checks store the literal string `"[]"`). -/
inductive PatientIds where
  | idList (ids : List String)
  | literalString (s : String)
  deriving DecidableEq

/-- The dictionary a check execution (or the orchestrator's skip branch)
produces.  A `none` field models an absent dictionary key.
`listReference` is doubly optional: the key is present in the subject-list
branch of the CQL check even when its value is Python `None`. -/
structure CheckResult where
  count : Option ℤ
  countWithDP : Option ℤ
  listReference : Option (Option String)
  patientIds : Option PatientIds
  epsilonUsed : ℚ
  description : Option String
  error : Option String
  deriving DecidableEq

/-- Python truthiness of an optional string (`None` and `""` are falsy). -/
def truthyOpt (o : Option String) : Bool := o.getD "" != ""

/-- Python `f"...{x}..."` rendering of an optional string (`None` prints as
`None`). -/
def pyStr : Option String → String
  | some s => s
  | none => "None"

/-- Python `xs[0]` applied to `d.get(key, [default])`: `none` models an
absent key (so the default singleton is used), `some []` raises
`IndexError`, otherwise the first element is returned. -/
def pyFirst {α : Type} (dflt : α) : Option (List α) → Except PyError α
  | none => .ok dflt
  | some [] => .error .indexError
  | some (a :: _) => .ok a

/-- One entry of a FHIR `coding` list (`system` / `code` keys). -/
structure Coding where
  system : Option String
  code : Option String
  deriving DecidableEq

/-- One FHIR `identifier` entry of a Patient resource. -/
structure FhirIdentifier where
  system : Option String
  value : Option String
  deriving DecidableEq

/-- A Patient resource as fetched by `DuplicateIdentifierCheck`
(`_elements=id,identifier`). -/
structure PatientRes where
  id : Option String
  identifiers : List FhirIdentifier
  deriving DecidableEq

/-- A Patient resource as fetched by `StalePatientCheck`
(`_elements=id,meta`); `lastUpdated` is the already-parsed timestamp
(date parsing by `dateutil` is an external collaborator). -/
structure PatientMetaRes where
  id : Option String
  lastUpdated : Option ℤ
  deriving DecidableEq

/-- A Condition resource as fetched by `InvalidConditionICDCheck`
(`_elements=id,code,subject`): its `code.coding` list and
`subject.reference`. -/
structure ConditionRes where
  codings : List Coding
  subjectRef : Option String
  deriving DecidableEq

/-- A Condition resource as fetched by the fallback of `StalePatientCheck`
(`_elements=subject,recordedDate`). -/
structure ConditionRecordedRes where
  recordedDate : Option ℤ
  subjectRef : Option String
  deriving DecidableEq

/-- A FHIR extension of a Specimen resource: its `url` and the `coding`
list of its `valueCodeableConcept` (a `none` codings field models an
absent `coding` key, in which case the source falls back to `[{}]`). -/
structure FhirExtension where
  url : Option String
  codings : Option (List Coding)
  deriving DecidableEq

/-- A Specimen resource as fetched by `InvalidSpecimenICDCheck`
(`_elements=id,extension,subject`). -/
structure SpecimenRes where
  extensions : List FhirExtension
  subjectRef : Option String
  deriving DecidableEq

/-- The group/population navigation target of a MeasureReport:
`population[...].count` and `population[...].subjectResults.reference`. -/
structure MeasurePopulation where
  count : Option ℤ
  subjectResultsRef : Option String
  deriving DecidableEq

/-- One entry of the `group` list of a MeasureReport. -/
structure MeasureGroup where
  populations : Option (List MeasurePopulation)
  deriving DecidableEq

/-- A MeasureReport response of the `$evaluate-measure` collaborator. -/
structure MeasureReport where
  groups : Option (List MeasureGroup)
  deriving DecidableEq

/-- Default `{}` group used by `measure_report.get("group", [{}])`. -/
def emptyGroup : MeasureGroup := { populations := none }

/-- Default `{}` population used by `.get("population", [{}])`. -/
def emptyPopulation : MeasurePopulation := { count := none, subjectResultsRef := none }

/-- Default `{}` coding used by `.get("coding", [{}])[0]`. -/
def emptyCoding : Coding := { system := none, code := none }

/-- The external world a single check execution interacts with: file
system, FHIR collaborators, the `icd10` lookup library, and the standard
Laplace draw consumed by `add_laplace_noise`.  Each `Except` field is the
outcome of the corresponding I/O step (`.error` models a raised
exception, e.g. a `requests` transport error). -/
structure Env where
  readFirstLine : Except PyError String
  readFileBytes : Except PyError Unit
  postLibrary : Except PyError Unit
  postMeasure : Except PyError (Option String)
  evalMeasure : Except PyError MeasureReport
  evalMeasureList : Except PyError MeasureReport
  fetchListEntries : Except PyError (List String)
  fetchPatients : Except PyError (List PatientRes)
  fetchPatientsMeta : Except PyError (List PatientMetaRes)
  fetchConditions : Except PyError (List ConditionRes)
  fetchConditionsRecorded : Except PyError (List ConditionRecordedRes)
  fetchSpecimens : Except PyError (List SpecimenRes)
  icd10find : String → Bool
  noise : ℚ

/-- `"http://hl7.org/fhir/sid/icd-10"`. -/
def icd10System : String := "http://hl7.org/fhir/sid/icd-10"

/-- `"http://hl7.org/fhir/sid/icd-10-cm"`. -/
def icd10cmSystem : String := "http://hl7.org/fhir/sid/icd-10-cm"

/-- `"http://hl7.org/fhir/sid/icd-9-cm"`. -/
def icd9System : String := "http://hl7.org/fhir/sid/icd-9-cm"

/-- Default `identifier_system` of `DuplicateIdentifierCheck`. -/
def defaultIdentifierSystem : String := "https://fhir.bbmri.de/id/patient"

/-- The `SampleDiagnosis` extension url of `InvalidSpecimenICDCheck`. -/
def sampleDiagnosisUrl : String := "https://fhir.bbmri.de/StructureDefinition/SampleDiagnosis"

/-- Body of `CQLQualityCheck.execute` inside its `try` block.  Mirrors the
source statement by statement: read the first line (description
extraction), read and base64-encode the file, post the Library, post the
Measure, evaluate it (list variant under `subject-list`), navigate
`group[0].population[0]` with `[{}]` defaults, optionally resolve the
subject-list reference, then privatize the count. -/
def cqlInterior (eps : ℚ) (env : Env) (reportType : String) : Except PyError CheckResult :=
  Except.bind env.readFirstLine fun _ =>
  Except.bind env.readFileBytes fun _ =>
  Except.bind env.postLibrary fun _ =>
  Except.bind env.postMeasure fun _ =>
  if reportType = "subject-list" then
    Except.bind env.evalMeasureList fun report =>
    Except.bind (pyFirst emptyGroup report.groups) fun g =>
    Except.bind (pyFirst emptyPopulation g.populations) fun p =>
    Except.bind (if truthyOpt p.subjectResultsRef then env.fetchListEntries else .ok []) fun pids =>
    Except.bind (add_laplace_noise (p.count.getD 0) eps 1 env.noise) fun dp =>
    .ok { count := some (p.count.getD 0), countWithDP := some dp,
          listReference := some p.subjectResultsRef, patientIds := some (.idList pids),
          epsilonUsed := eps, description := none, error := none }
  else
    Except.bind env.evalMeasure fun report =>
    Except.bind (pyFirst emptyGroup report.groups) fun g =>
    Except.bind (pyFirst emptyPopulation g.populations) fun p =>
    Except.bind (add_laplace_noise (p.count.getD 0) eps 1 env.noise) fun dp =>
    .ok { count := some (p.count.getD 0), countWithDP := some dp,
          listReference := none, patientIds := none,
          epsilonUsed := eps, description := none, error := none }

/-- `identifier_map[v].append(ref)` with creation of missing keys, on an
insertion-ordered association list (Python dict semantics). -/
def insertIdent : List (String × List String) → String → String → List (String × List String)
  | [], v, ref => [(v, [ref])]
  | (k, refs) :: rest, v, ref =>
    if k = v then (k, refs ++ [ref]) :: rest else (k, refs) :: insertIdent rest v ref

/-- The `identifier_map` built by `DuplicateIdentifierCheck.execute`:
for every patient, every identifier whose `system` matches and whose
`value` is truthy contributes `f"Patient/{patient_id}"` under that value. -/
def buildIdentifierMap (idSystem : String) (patients : List PatientRes) :
    List (String × List String) :=
  patients.foldl (fun m p =>
    p.identifiers.foldl (fun m2 ident =>
      if ident.system = some idSystem ∧ truthyOpt ident.value then
        insertIdent m2 (ident.value.getD "") ("Patient/" ++ pyStr p.id)
      else m2) m) []

/-- The `duplicate_ids` list of `DuplicateIdentifierCheck.execute`:
concatenation of the reference lists of all identifier values held by
more than one patient, in map insertion order. -/
def duplicateIds (idSystem : String) (patients : List PatientRes) : List String :=
  ((buildIdentifierMap idSystem patients).filter
    (fun kv => decide (1 < kv.2.length))).foldl (fun acc kv => acc ++ kv.2) []

/-- Body of `DuplicateIdentifierCheck.execute` inside its `try` block.
`len(set(...))` is the number of distinct references, and
`list(set(...))` is modelled by `List.dedup` (CPython set iteration order
is unspecified). -/
def dupInterior (idSystem : String) (eps : ℚ) (env : Env) (reportType : String) :
    Except PyError CheckResult :=
  Except.bind env.fetchPatients fun patients =>
  Except.bind
    (add_laplace_noise ((duplicateIds idSystem patients).dedup.length : ℤ) eps 1 env.noise)
    fun dp =>
  .ok { count := some ((duplicateIds idSystem patients).dedup.length : ℤ),
        countWithDP := some dp, listReference := none,
        patientIds :=
          if reportType = "subject-list" then
            some (.idList (duplicateIds idSystem patients).dedup)
          else none,
        epsilonUsed := eps, description := none, error := none }

/-- The inner `for coding in codings` loop of `InvalidConditionICDCheck`:
ICD-10 codings are validated through the `icd10` library; an ICD-9-cm
coding with a truthy code reaches `re.match(...)`, and since
`report_utils.py` never imports `re`, evaluating the name `re` raises
`NameError` at that point. -/
def checkCodings (find : String → Bool) : List Coding → Except PyError Bool
  | [] => .ok false
  | c :: rest =>
    if c.system = some icd10System ∨ c.system = some icd10cmSystem then
      if truthyOpt c.code && find (c.code.getD "") then .ok true
      else checkCodings find rest
    else if c.system = some icd9System then
      if truthyOpt c.code then .error (.nameError "re")
      else checkCodings find rest
    else checkCodings find rest

/-- The outer `for entry in conditions` loop of `InvalidConditionICDCheck`:
a condition with a nonempty coding list, no valid ICD coding and a truthy
subject reference contributes that reference. -/
def collectInvalidCondition (find : String → Bool) : List ConditionRes → Except PyError (List String)
  | [] => .ok []
  | c :: rest =>
    Except.bind (checkCodings find c.codings) fun valid =>
    Except.bind (collectInvalidCondition find rest) fun tl =>
    .ok ((if !c.codings.isEmpty && !valid && truthyOpt c.subjectRef
          then [c.subjectRef.getD ""] else []) ++ tl)

/-- Body of `InvalidConditionICDCheck.execute` inside its `try` block.
Under `subject-list` report mode the source stores the literal string
`"[]"` under `patientIds` (not a list of subject identifiers). -/
def condInterior (eps : ℚ) (env : Env) (reportType : String) : Except PyError CheckResult :=
  Except.bind env.fetchConditions fun conditions =>
  Except.bind (collectInvalidCondition env.icd10find conditions) fun invalidIds =>
  Except.bind (add_laplace_noise (invalidIds.dedup.length : ℤ) eps 1 env.noise) fun dp =>
  .ok { count := some (invalidIds.dedup.length : ℤ), countWithDP := some dp,
        listReference := none,
        patientIds := if reportType = "subject-list" then some (.literalString "[]") else none,
        epsilonUsed := eps, description := none, error := none }

/-- Validity of the single examined coding of a Specimen's SampleDiagnosis
extension; the ICD-9 branch raises `NameError` exactly as in
`checkCodings` (the module never imports `re`). -/
def specimenCodingValid (find : String → Bool) (c : Coding) : Except PyError Bool :=
  if c.system = some icd10System ∨ c.system = some icd10cmSystem then
    .ok (truthyOpt c.code && find (c.code.getD ""))
  else if c.system = some icd9System then
    if truthyOpt c.code then .error (.nameError "re") else .ok false
  else .ok false

/-- Processing of one Specimen by `InvalidSpecimenICDCheck.execute`:
find the SampleDiagnosis extension, take the first coding of its
`valueCodeableConcept` (defaulting to `{}` when the `coding` key is
absent, raising `IndexError` when it is an empty list), and record the
subject reference when the coding is invalid yet carries a truthy code. -/
def processSpecimen (find : String → Bool) (s : SpecimenRes) : Except PyError (List String) :=
  match s.extensions.find? (fun e2 => e2.url == some sampleDiagnosisUrl) with
  | none => .ok []
  | some ext =>
    Except.bind (pyFirst emptyCoding ext.codings) fun coding =>
    Except.bind (specimenCodingValid find coding) fun valid =>
    .ok (if !valid && truthyOpt coding.code && truthyOpt s.subjectRef
         then [s.subjectRef.getD ""] else [])

/-- The `for entry in specimens` loop of `InvalidSpecimenICDCheck`. -/
def collectInvalidSpecimen (find : String → Bool) : List SpecimenRes → Except PyError (List String)
  | [] => .ok []
  | s :: rest =>
    Except.bind (processSpecimen find s) fun ids =>
    Except.bind (collectInvalidSpecimen find rest) fun tl =>
    .ok (ids ++ tl)

/-- Body of `InvalidSpecimenICDCheck.execute` inside its `try` block. -/
def specInterior (eps : ℚ) (env : Env) (reportType : String) : Except PyError CheckResult :=
  Except.bind env.fetchSpecimens fun specimens =>
  Except.bind (collectInvalidSpecimen env.icd10find specimens) fun invalidIds =>
  Except.bind (add_laplace_noise (invalidIds.dedup.length : ℤ) eps 1 env.noise) fun dp =>
  .ok { count := some (invalidIds.dedup.length : ℤ), countWithDP := some dp,
        listReference := none,
        patientIds := if reportType = "subject-list" then some (.literalString "[]") else none,
        epsilonUsed := eps, description := none, error := none }

/-- `parse_date("2024-05-28T00:00:00Z")` as a Unix timestamp. -/
def cutoffDate : ℤ := 1716854400

/-- Patients whose `meta.lastUpdated` precedes the cutoff
(`f"Patient/{patient.get('id')}"` is recorded). -/
def staleFromPatients (cutoff : ℤ) (patients : List PatientMetaRes) : List String :=
  patients.filterMap fun p =>
    match p.lastUpdated with
    | some t => if t < cutoff then some ("Patient/" ++ pyStr p.id) else none
    | none => none

/-- Fallback of `StalePatientCheck`: subjects of Conditions whose
`recordedDate` precedes the cutoff. -/
def staleFromConditions (cutoff : ℤ) (conds : List ConditionRecordedRes) : List String :=
  conds.filterMap fun c =>
    match c.recordedDate with
    | some t =>
      if t < cutoff then (if truthyOpt c.subjectRef then some (c.subjectRef.getD "") else none)
      else none
    | none => none

/-- Body of `StalePatientCheck.execute` inside its `try` block: the
Condition fallback fetch runs only when no stale patient was found. -/
def staleInterior (eps : ℚ) (env : Env) (reportType : String) : Except PyError CheckResult :=
  Except.bind env.fetchPatientsMeta fun patients =>
  Except.bind
    (if (staleFromPatients cutoffDate patients).isEmpty then
       Except.bind env.fetchConditionsRecorded fun conds =>
       .ok (staleFromConditions cutoffDate conds)
     else .ok (staleFromPatients cutoffDate patients)) fun staleIds =>
  Except.bind (add_laplace_noise (staleIds.dedup.length : ℤ) eps 1 env.noise) fun dp =>
  .ok { count := some (staleIds.dedup.length : ℤ), countWithDP := some dp,
        listReference := none,
        patientIds := if reportType = "subject-list" then some (.literalString "[]") else none,
        epsilonUsed := eps, description := none, error := none }

/-- The polymorphic check abstraction: the CQL variant plus the four
native variants, each carrying the state set by its `__init__`. -/
inductive Check where
  | cql (filename : String) (cqlPath : String) (epsilon : ℚ)
  | duplicateIdentifier (identifierSystem : String) (epsilon : ℚ)
  | invalidConditionICD (epsilon : ℚ)
  | invalidSpecimenICD (epsilon : ℚ)
  | stalePatient (epsilon : ℚ)
  deriving DecidableEq

/-- `self.name` as set by each `__init__`. -/
def Check.name : Check → String
  | .cql filename _ _ => filename
  | .duplicateIdentifier _ _ => "uniqness-1"
  | .invalidConditionICD _ => "validity-1"
  | .invalidSpecimenICD _ => "validity-2"
  | .stalePatient _ => "timeliness-1"

/-- `self.epsilon` as set by each `__init__`. -/
def Check.epsilon : Check → ℚ
  | .cql _ _ e => e
  | .duplicateIdentifier _ e => e
  | .invalidConditionICD e => e
  | .invalidSpecimenICD e => e
  | .stalePatient e => e

/-- Dispatch on the check variant: the `try`-block body of its
`execute`. -/
def checkInterior : Check → Env → String → Except PyError CheckResult
  | .cql _ _ eps, env, rt => cqlInterior eps env rt
  | .duplicateIdentifier idSys eps, env, rt => dupInterior idSys eps env rt
  | .invalidConditionICD eps, env, rt => condInterior eps env rt
  | .invalidSpecimenICD eps, env, rt => specInterior eps env rt
  | .stalePatient eps, env, rt => staleInterior eps env rt

/-- The dictionary built by every `except Exception as e` handler:
`{"error": str(e), "epsilonUsed": 0.0}`. -/
def errorResult (pe : PyError) : CheckResult :=
  { count := none, countWithDP := none, listReference := none, patientIds := none,
    epsilonUsed := 0, description := none, error := some pe.message }

/-- `check.execute(base_url, subject_type, report_type)`: the `try` body
with every raised exception converted into an error result.  This is a
total function: no exception crosses the orchestrator boundary. -/
def executeCheck (c : Check) (env : Env) (subjectType reportType : String) : CheckResult :=
  match checkInterior c env reportType with
  | .ok r => r
  | .error pe => errorResult pe

/-- `check.get_description()` as read by the orchestrator after
`execute` returned: the CQL check mutates `self.description` when the
first line of its file was read and is a `//` comment; native checks keep
their fixed descriptions. -/
def descriptionAfter : Check → Env → String
  | .cql _ _ _, env =>
    match env.readFirstLine with
    | .ok line =>
      if line.trim.startsWith "//" then (line.trim.drop 2).trim else "Unknown"
    | .error _ => "Unknown"
  | .duplicateIdentifier _ _, _ => "Duplicate patients"
  | .invalidConditionICD _, _ => "How many conditions have invalid ICD-10 codes"
  | .invalidSpecimenICD _, _ => "How many Specimens have invalid ICD-10 diagnoses"
  | .stalePatient _, _ => "How many patients were last updated more than a year ago"

/-- The record stored for an executed check:
`results[check.name] = result` followed by
`results[check.name]["description"] = check.get_description()`. -/
def execRecord (c : Check) (env : Env) (subjectType reportType : String) : CheckResult :=
  { executeCheck c env subjectType reportType with description := some (descriptionAfter c env) }

/-- The record stored for a check denied admission:
`{"error": "Exceeded total epsilon budget", "epsilonUsed": 0.0}`
(no description is attached on this path). -/
def skipResult : CheckResult :=
  { count := none, countWithDP := none, listReference := none, patientIds := none,
    epsilonUsed := 0, description := none, error := some "Exceeded total epsilon budget" }

/-- `results[k] = v` on an insertion-ordered association list with Python
dict semantics: update in place when the key exists, append otherwise. -/
def dictInsert (m : List (String × CheckResult)) (k : String) (v : CheckResult) :
    List (String × CheckResult) :=
  if k ∈ m.map Prod.fst then m.map (fun p => if p.1 = k then (k, v) else p)
  else m ++ [(k, v)]

/-- The `for check in quality_checks` loop of `get_qc_results`.
State: the current position `i` in the registry (the environment of the
check at position `i` is `envs i`), the running `total_epsilon_used`
(`spent`), and the `results` dictionary (`acc`).  A check is skipped when
`spent + epsilon > totalEpsilon`; otherwise it executes, its result (with
the description attached) is stored, and `spent` grows by the result's
`epsilonUsed`. -/
def qcLoop (st rt : String) (eps total : ℚ) (envs : ℕ → Env) :
    List Check → ℕ → ℚ → List (String × CheckResult) → List (String × CheckResult) × ℚ
  | [], _, spent, acc => (acc, spent)
  | c :: rest, i, spent, acc =>
    if spent + eps > total then
      qcLoop st rt eps total envs rest (i + 1) spent (dictInsert acc c.name skipResult)
    else
      qcLoop st rt eps total envs rest (i + 1)
        (spent + (execRecord c (envs i) st rt).epsilonUsed)
        (dictInsert acc c.name (execRecord c (envs i) st rt))

/-- The check registry assembled by `get_qc_results`: the CQL checks in
glob discovery order (each `(filename, path)` pair), followed by the four
native checks in declaration order, all with the configured per-query
epsilon. -/
def buildRegistry (cqlFiles : List (String × String)) (eps : ℚ) : List Check :=
  cqlFiles.map (fun p => Check.cql p.1 p.2 eps) ++
    [Check.duplicateIdentifier defaultIdentifierSystem eps,
     Check.invalidConditionICD eps,
     Check.invalidSpecimenICD eps,
     Check.stalePatient eps]

/-- `get_qc_results(directory, base_url, subject_type, report_type,
epsilon, total_epsilon)`: build the registry and run the loop with
`results = {}` and `total_epsilon_used = 0.0`.  The source stores the
final spent total inside the same dictionary under the
`"totalEpsilonUsed"` key; the model returns it as the second component of
the pair. -/
def get_qc_results (cqlFiles : List (String × String)) (envs : ℕ → Env)
    (subjectType reportType : String) (epsilon totalEpsilon : ℚ) :
    List (String × CheckResult) × ℚ :=
  qcLoop subjectType reportType epsilon totalEpsilon envs
    (buildRegistry cqlFiles epsilon) 0 0 []

/-- Proof-side replay of `qcLoop` without the results dictionary
threading: entries are emitted in order.  Equal to `qcLoop` whenever the
registry names are distinct (`qcLoop_eq_qcRun`). -/
def qcRun (st rt : String) (eps total : ℚ) (envs : ℕ → Env) :
    List Check → ℕ → ℚ → List (String × CheckResult) × ℚ
  | [], _, spent => ([], spent)
  | c :: rest, i, spent =>
    if spent + eps > total then
      ((c.name, skipResult) :: (qcRun st rt eps total envs rest (i + 1) spent).1,
       (qcRun st rt eps total envs rest (i + 1) spent).2)
    else
      ((c.name, execRecord c (envs i) st rt) ::
        (qcRun st rt eps total envs rest (i + 1)
          (spent + (execRecord c (envs i) st rt).epsilonUsed)).1,
       (qcRun st rt eps total envs rest (i + 1)
          (spent + (execRecord c (envs i) st rt).epsilonUsed)).2)

/-- A benign environment: every collaborator call succeeds with an empty
response and the injected Laplace draw is 0. -/
def env0 : Env :=
  { readFirstLine := .ok "", readFileBytes := .ok (), postLibrary := .ok (),
    postMeasure := .ok none, evalMeasure := .ok { groups := none },
    evalMeasureList := .ok { groups := none }, fetchListEntries := .ok [],
    fetchPatients := .ok [], fetchPatientsMeta := .ok [], fetchConditions := .ok [],
    fetchConditionsRecorded := .ok [], fetchSpecimens := .ok [],
    icd10find := fun _ => false, noise := 0 }

/-- An environment whose Library POST raises a transport error. -/
def envNetFail : Env :=
  { env0 with postLibrary := .error (.remoteError "connection refused") }

/-- An environment whose Condition and Specimen fetches return one
resource each carrying an ICD-9-cm coding with a nonempty code — the
inputs that reach the `re.match` call. -/
def envIcd9 : Env :=
  { env0 with
    fetchConditions :=
      .ok [{ codings := [{ system := some icd9System, code := some "250.0" }],
             subjectRef := some "Patient/p1" }],
    fetchSpecimens :=
      .ok [{ extensions :=
               [{ url := some sampleDiagnosisUrl,
                  codings := some [{ system := some icd9System, code := some "250.0" }] }],
             subjectRef := some "Patient/p1" }] }

/-- What the `patientIds` key of a successful result looks like, per
variant and report mode: the CQL and duplicate-identifier checks store an
actual list, the other native checks store the literal string `"[]"`,
and outside `subject-list` mode the key is absent. -/
def PatientIdsShape (c : Check) (rt : String) (r : CheckResult) : Prop :=
  if rt = "subject-list" then
    match c with
    | .cql _ _ _ => ∃ ids, r.patientIds = some (.idList ids)
    | .duplicateIdentifier _ _ => ∃ ids, r.patientIds = some (.idList ids)
    | _ => r.patientIds = some (.literalString "[]")
  else r.patientIds = none

/-- Shape of every result a check's `try` body can return successfully:
no error key, a raw and a privatized count, `epsilonUsed` equal to the
check's configured epsilon, and the per-variant `patientIds` shape. -/
def SuccessShape (c : Check) (rt : String) (r : CheckResult) : Prop :=
  r.error = none ∧ (∃ n, r.count = some n) ∧ (∃ d, r.countWithDP = some d) ∧
    r.epsilonUsed = c.epsilon ∧ PatientIdsShape c rt r

/-- Classifier: is the `patientIds` value an actual list? -/
def isIdList : Option PatientIds → Bool
  | some (.idList _) => true
  | _ => false

/-- A coding that validates as ICD-10 in the inner loop of
`InvalidConditionICDCheck` (matching system, truthy code, found by the
`icd10` library). -/
def codingIcd10Valid (find : String → Bool) (c : Coding) : Prop :=
  (c.system = some icd10System ∨ c.system = some icd10cmSystem) ∧
    (truthyOpt c.code && find (c.code.getD "")) = true

/-! ## Helper lemmas -/

/-- Postcondition holds on every successful outcome. -/
def ExceptOk {α : Type} (P : α → Prop) (x : Except PyError α) : Prop :=
  ∀ a, x = .ok a → P a

theorem exceptOk_bind {α β : Type} {P : β → Prop} {x : Except PyError α}
    {f : α → Except PyError β} (h : ∀ a, ExceptOk P (f a)) :
    ExceptOk P (Except.bind x f) := by
  intro b hb
  cases x with
  | error e => simp [Except.bind] at hb
  | ok a => exact h a b (by simpa [Except.bind] using hb)

theorem exceptOk_pure {α : Type} {P : α → Prop} {a : α} (h : P a) :
    ExceptOk P (Except.ok a) := by
  intro b hb
  injection hb with h2
  exact h2 ▸ h

theorem exceptOk_error {α : Type} {P : α → Prop} {e : PyError} :
    ExceptOk P (Except.error e) := by
  intro b hb
  simp at hb

theorem bind_error {α β : Type} {e : PyError} {f : α → Except PyError β} :
    Except.bind (Except.error e : Except PyError α) f = Except.error e := rfl

theorem bind_ok {α β : Type} {a : α} {f : α → Except PyError β} :
    Except.bind (Except.ok a : Except PyError α) f = f a := rfl

/-! ## C2 / C3: the noise mechanism -/

/-- C2 (counterexample): with `epsilon = 0` the `dp_utils` noise function
does not raise a parameter-validation error — it fails with
`ZeroDivisionError` when computing `sensitivity / epsilon`. -/
theorem add_laplace_noise_zero_eps_zero_division :
    add_laplace_noise 0 0 1 0 = .error .zeroDivisionError ∧
    isParamValidationError (add_laplace_noise 0 0 1 0) = false := by
  constructor <;> rfl

/-- C2 (amended): for every `epsilon ≤ 0` neither noise function returns a
value.  `df.apply_differential_privacy` raises its explicit
parameter-validation `ValueError`; `dp_utils.add_laplace_noise` (which
performs no validation) raises `ZeroDivisionError` when `epsilon = 0` and
the random source's negative-scale `ValueError` when `epsilon < 0`. -/
theorem noise_eps_nonpos_raises (count : ℤ) (eps u : ℚ) (h : eps ≤ 0) :
    apply_differential_privacy count eps 0 u = .error (.valueError "Epsilon must be > 0") ∧
    add_laplace_noise count eps 1 u =
      .error (if eps = 0 then .zeroDivisionError else .valueError "scale < 0") := by
  constructor
  · unfold apply_differential_privacy
    rw [if_pos h]
  · unfold add_laplace_noise
    by_cases h0 : eps = 0
    · rw [if_pos h0, if_pos h0]
    · rw [if_neg h0, if_neg h0]
      have hlt : eps < 0 := lt_of_le_of_ne h h0
      have hs : (1 : ℚ) / eps < 0 := div_neg_of_pos_of_neg one_pos hlt
      unfold np_random_laplace
      rw [if_pos hs, bind_error]

/-- C2 (amended, witness at `count = 3`, `eps = 0`). -/
theorem noise_eps_nonpos_raises_witness :
    apply_differential_privacy 3 0 0 0 = .error (.valueError "Epsilon must be > 0") ∧
    add_laplace_noise 3 0 1 0 =
      .error (if (0 : ℚ) = 0 then .zeroDivisionError else .valueError "scale < 0") :=
  noise_eps_nonpos_raises 3 0 0 (le_refl 0)

/-- C3: for every non-negative raw count, every `epsilon > 0` and every
noise draw, both noise functions return a non-negative integer (the
rounded noisy value is clamped at 0). -/
theorem noise_output_nonneg (count : ℤ) (eps u : ℚ) (hc : 0 ≤ count) (he : 0 < eps) :
    (∃ v, add_laplace_noise count eps 1 u = .ok v ∧ 0 ≤ v) ∧
    (∃ w, apply_differential_privacy count eps 0 u = .ok w ∧ 0 ≤ w) := by
  have hne : eps ≠ 0 := ne_of_gt he
  have hsc : ¬((1 : ℚ) / eps < 0) := not_lt.mpr (le_of_lt (div_pos one_pos he))
  constructor
  · refine ⟨max 0 (pyRound ((count : ℚ) + (0 + 1 / eps * u))), ?_, le_max_left _ _⟩
    unfold add_laplace_noise np_random_laplace
    rw [if_neg hne, if_neg (by simpa using hsc), bind_ok]
  · refine ⟨max (pyRound ((count : ℚ) + (0 + 1 / eps * u))) 0, ?_, le_max_right _ _⟩
    unfold apply_differential_privacy np_random_laplace
    rw [if_neg (not_le.mpr he), if_neg hsc, bind_ok]

/-- C3 (witness at `count = 5`, `eps = 1`, draw `u = -7`). -/
theorem noise_output_nonneg_witness :
    (∃ v, add_laplace_noise 5 1 1 (-7) = .ok v ∧ 0 ≤ v) ∧
    (∃ w, apply_differential_privacy 5 1 0 (-7) = .ok w ∧ 0 ≤ w) :=
  noise_output_nonneg 5 1 (-7) (by norm_num) (by norm_num)

/-! ## Shape of check executions -/

theorem cqlInterior_shape (fn path : String) (eps : ℚ) (env : Env) (rt : String) :
    ExceptOk (SuccessShape (.cql fn path eps) rt) (cqlInterior eps env rt) := by
  unfold cqlInterior
  apply exceptOk_bind; intro _
  apply exceptOk_bind; intro _
  apply exceptOk_bind; intro _
  apply exceptOk_bind; intro _
  split
  case isTrue hrt =>
    apply exceptOk_bind; intro report
    apply exceptOk_bind; intro g
    apply exceptOk_bind; intro p
    apply exceptOk_bind; intro pids
    apply exceptOk_bind; intro dp
    refine exceptOk_pure ⟨rfl, ⟨_, rfl⟩, ⟨_, rfl⟩, rfl, ?_⟩
    simp [PatientIdsShape, hrt]
  case isFalse hrt =>
    apply exceptOk_bind; intro report
    apply exceptOk_bind; intro g
    apply exceptOk_bind; intro p
    apply exceptOk_bind; intro dp
    refine exceptOk_pure ⟨rfl, ⟨_, rfl⟩, ⟨_, rfl⟩, rfl, ?_⟩
    simp [PatientIdsShape, hrt]

theorem dupInterior_shape (idSys : String) (eps : ℚ) (env : Env) (rt : String) :
    ExceptOk (SuccessShape (.duplicateIdentifier idSys eps) rt) (dupInterior idSys eps env rt) := by
  unfold dupInterior
  apply exceptOk_bind; intro patients
  apply exceptOk_bind; intro dp
  refine exceptOk_pure ⟨rfl, ⟨_, rfl⟩, ⟨_, rfl⟩, rfl, ?_⟩
  by_cases hrt : rt = "subject-list" <;> simp [PatientIdsShape, hrt]

theorem condInterior_shape (eps : ℚ) (env : Env) (rt : String) :
    ExceptOk (SuccessShape (.invalidConditionICD eps) rt) (condInterior eps env rt) := by
  unfold condInterior
  apply exceptOk_bind; intro conditions
  apply exceptOk_bind; intro invalidIds
  apply exceptOk_bind; intro dp
  refine exceptOk_pure ⟨rfl, ⟨_, rfl⟩, ⟨_, rfl⟩, rfl, ?_⟩
  by_cases hrt : rt = "subject-list" <;> simp [PatientIdsShape, hrt]

theorem specInterior_shape (eps : ℚ) (env : Env) (rt : String) :
    ExceptOk (SuccessShape (.invalidSpecimenICD eps) rt) (specInterior eps env rt) := by
  unfold specInterior
  apply exceptOk_bind; intro specimens
  apply exceptOk_bind; intro invalidIds
  apply exceptOk_bind; intro dp
  refine exceptOk_pure ⟨rfl, ⟨_, rfl⟩, ⟨_, rfl⟩, rfl, ?_⟩
  by_cases hrt : rt = "subject-list" <;> simp [PatientIdsShape, hrt]

theorem staleInterior_shape (eps : ℚ) (env : Env) (rt : String) :
    ExceptOk (SuccessShape (.stalePatient eps) rt) (staleInterior eps env rt) := by
  unfold staleInterior
  apply exceptOk_bind; intro patients
  apply exceptOk_bind; intro staleIds
  apply exceptOk_bind; intro dp
  refine exceptOk_pure ⟨rfl, ⟨_, rfl⟩, ⟨_, rfl⟩, rfl, ?_⟩
  by_cases hrt : rt = "subject-list" <;> simp [PatientIdsShape, hrt]

theorem checkInterior_shape (c : Check) (env : Env) (rt : String) :
    ExceptOk (SuccessShape c rt) (checkInterior c env rt) := by
  cases c with
  | cql fn path eps => exact cqlInterior_shape fn path eps env rt
  | duplicateIdentifier idSys eps => exact dupInterior_shape idSys eps env rt
  | invalidConditionICD eps => exact condInterior_shape eps env rt
  | invalidSpecimenICD eps => exact specInterior_shape eps env rt
  | stalePatient eps => exact staleInterior_shape eps env rt

/-- Every execution is either a success of the expected shape or an error
result (the `except` handler output). -/
theorem executeCheck_cases (c : Check) (env : Env) (st rt : String) :
    SuccessShape c rt (executeCheck c env st rt) ∨
      ∃ pe, executeCheck c env st rt = errorResult pe := by
  unfold executeCheck
  cases h : checkInterior c env rt with
  | ok r => exact .inl (checkInterior_shape c env rt r h)
  | error pe => exact .inr ⟨pe, rfl⟩

theorem errorResult_error (pe : PyError) : (errorResult pe).error = some pe.message := rfl

theorem errorResult_epsilonUsed (pe : PyError) : (errorResult pe).epsilonUsed = 0 := rfl

theorem errorResult_count (pe : PyError) : (errorResult pe).count = none := rfl

theorem errorResult_patientIds (pe : PyError) : (errorResult pe).patientIds = none := rfl

theorem execRecord_error (c : Check) (env : Env) (st rt : String) :
    (execRecord c env st rt).error = (executeCheck c env st rt).error := rfl

theorem execRecord_epsilonUsed (c : Check) (env : Env) (st rt : String) :
    (execRecord c env st rt).epsilonUsed = (executeCheck c env st rt).epsilonUsed := rfl

theorem execRecord_count (c : Check) (env : Env) (st rt : String) :
    (execRecord c env st rt).count = (executeCheck c env st rt).count := rfl

/-! ## Orchestrator loop lemmas -/

theorem dictInsert_notMem (m : List (String × CheckResult)) (k : String) (v : CheckResult)
    (h : k ∉ m.map Prod.fst) : dictInsert m k v = m ++ [(k, v)] := by
  unfold dictInsert
  rw [if_neg h]

theorem qcRun_nil (st rt : String) (eps total : ℚ) (envs : ℕ → Env) (i : ℕ) (spent : ℚ) :
    qcRun st rt eps total envs [] i spent = ([], spent) := rfl

theorem qcRun_cons_skip (st rt : String) (eps total : ℚ) (envs : ℕ → Env)
    (c : Check) (rest : List Check) (i : ℕ) (spent : ℚ) (hb : spent + eps > total) :
    qcRun st rt eps total envs (c :: rest) i spent =
      ((c.name, skipResult) :: (qcRun st rt eps total envs rest (i + 1) spent).1,
       (qcRun st rt eps total envs rest (i + 1) spent).2) := by
  simp only [qcRun, if_pos hb]

theorem qcRun_cons_exec (st rt : String) (eps total : ℚ) (envs : ℕ → Env)
    (c : Check) (rest : List Check) (i : ℕ) (spent : ℚ) (hb : ¬spent + eps > total) :
    qcRun st rt eps total envs (c :: rest) i spent =
      ((c.name, execRecord c (envs i) st rt) ::
        (qcRun st rt eps total envs rest (i + 1)
          (spent + (execRecord c (envs i) st rt).epsilonUsed)).1,
       (qcRun st rt eps total envs rest (i + 1)
          (spent + (execRecord c (envs i) st rt).epsilonUsed)).2) := by
  simp only [qcRun, if_neg hb]

/-- With pairwise distinct registry names (as in every actual run), the
dictionary-threading loop emits exactly the append-style trace. -/
theorem qcLoop_eq_qcRun (st rt : String) (eps total : ℚ) (envs : ℕ → Env) :
    ∀ (l : List Check) (i : ℕ) (spent : ℚ) (acc : List (String × CheckResult)),
      (l.map Check.name).Nodup →
      (∀ n ∈ l.map Check.name, n ∉ acc.map Prod.fst) →
      qcLoop st rt eps total envs l i spent acc =
        (acc ++ (qcRun st rt eps total envs l i spent).1,
         (qcRun st rt eps total envs l i spent).2) := by
  intro l
  induction l with
  | nil => intro i spent acc _ _; simp [qcLoop, qcRun]
  | cons c rest ih =>
    intro i spent acc hnd hdisj
    rw [List.map_cons, List.nodup_cons] at hnd
    obtain ⟨hnotin, hnd'⟩ := hnd
    have hc : c.name ∉ acc.map Prod.fst := hdisj c.name (by simp)
    have hdisj' : ∀ n ∈ rest.map Check.name,
        n ∉ (acc ++ [(c.name, skipResult)]).map Prod.fst := by
      intro n hn
      rw [List.map_append, List.mem_append]
      rintro (h1 | h2)
      · exact hdisj n (by simp [hn]) h1
      · simp only [List.map_cons, List.map_nil, List.mem_singleton] at h2
        exact hnotin (h2 ▸ hn)
    have hdisj'' : ∀ n ∈ rest.map Check.name,
        n ∉ (acc ++ [(c.name, execRecord c (envs i) st rt)]).map Prod.fst := by
      intro n hn
      rw [List.map_append, List.mem_append]
      rintro (h1 | h2)
      · exact hdisj n (by simp [hn]) h1
      · simp only [List.map_cons, List.map_nil, List.mem_singleton] at h2
        exact hnotin (h2 ▸ hn)
    by_cases hb : spent + eps > total
    · rw [qcRun_cons_skip st rt eps total envs c rest i spent hb]
      show qcLoop st rt eps total envs (c :: rest) i spent acc = _
      simp only [qcLoop, if_pos hb]
      rw [dictInsert_notMem _ _ _ hc,
        ih (i + 1) spent (acc ++ [(c.name, skipResult)]) hnd' hdisj']
      simp
    · rw [qcRun_cons_exec st rt eps total envs c rest i spent hb]
      show qcLoop st rt eps total envs (c :: rest) i spent acc = _
      simp only [qcLoop, if_neg hb]
      rw [dictInsert_notMem _ _ _ hc,
        ih (i + 1) (spent + (execRecord c (envs i) st rt).epsilonUsed)
          (acc ++ [(c.name, execRecord c (envs i) st rt)]) hnd' hdisj'']
      simp

/-- The trace keys are exactly the registry names, in order. -/
theorem qcRun_fst (st rt : String) (eps total : ℚ) (envs : ℕ → Env) :
    ∀ (l : List Check) (i : ℕ) (spent : ℚ),
      ((qcRun st rt eps total envs l i spent).1).map Prod.fst = l.map Check.name := by
  intro l
  induction l with
  | nil => intro i spent; simp [qcRun]
  | cons c rest ih =>
    intro i spent
    by_cases hb : spent + eps > total
    · rw [qcRun_cons_skip st rt eps total envs c rest i spent hb]
      simp [ih]
    · rw [qcRun_cons_exec st rt eps total envs c rest i spent hb]
      simp [ih]

/-- Budget bookkeeping invariant of the loop: starting from any
`0 ≤ spent ≤ B` with per-check epsilon `e > 0`, the final total equals
`spent` plus the sum of the recorded `epsilonUsed` values, never exceeds
`B`, and every recorded `epsilonUsed` is `0` or the `e` of a successful
execution. -/
theorem qcRun_budget (st rt : String) (e B : ℚ) (envs : ℕ → Env) (he : 0 < e) :
    ∀ (l : List Check) (i : ℕ) (spent : ℚ),
      (∀ c ∈ l, Check.epsilon c = e) → 0 ≤ spent → spent ≤ B →
      (qcRun st rt e B envs l i spent).2 =
          spent + (((qcRun st rt e B envs l i spent).1).map (fun p => p.2.epsilonUsed)).sum ∧
      (qcRun st rt e B envs l i spent).2 ≤ B ∧
      ∀ p ∈ (qcRun st rt e B envs l i spent).1,
        0 ≤ p.2.epsilonUsed ∧
          (p.2.epsilonUsed ≠ 0 → p.2.error = none ∧ p.2.epsilonUsed = e) := by
  intro l
  induction l with
  | nil =>
    intro i spent _ h0 hB
    exact ⟨by simp [qcRun_nil], by simpa [qcRun_nil] using hB, by simp [qcRun_nil]⟩
  | cons c rest ih =>
    intro i spent heps h0 hB
    by_cases hb : spent + e > B
    · rw [qcRun_cons_skip st rt e B envs c rest i spent hb]
      obtain ⟨ih1, ih2, ih3⟩ := ih (i + 1) spent (fun c2 hc2 => heps c2 (by simp [hc2])) h0 hB
      refine ⟨?_, ih2, ?_⟩
      · simp only [List.map_cons, List.sum_cons]
        rw [ih1, show skipResult.epsilonUsed = 0 from rfl]
        ring
      · intro p hp
        rcases List.mem_cons.mp hp with hp1 | hp2
        · subst hp1
          exact ⟨le_refl 0, fun hne => absurd rfl hne⟩
        · exact ih3 p hp2
    · have hspB : spent + e ≤ B := not_lt.mp hb
      have hce : Check.epsilon c = e := heps c (by simp)
      have hu : ((execRecord c (envs i) st rt).epsilonUsed = e ∧
            (execRecord c (envs i) st rt).error = none) ∨
          ((execRecord c (envs i) st rt).epsilonUsed = 0 ∧
            ∃ m, (execRecord c (envs i) st rt).error = some m) := by
        rcases executeCheck_cases c (envs i) st rt with hsucc | ⟨pe, herr⟩
        · exact .inl ⟨by rw [execRecord_epsilonUsed, hsucc.2.2.2.1, hce],
            by rw [execRecord_error, hsucc.1]⟩
        · exact .inr ⟨by rw [execRecord_epsilonUsed, herr, errorResult_epsilonUsed],
            ⟨pe.message, by rw [execRecord_error, herr, errorResult_error]⟩⟩
      have hu0 : 0 ≤ (execRecord c (envs i) st rt).epsilonUsed := by
        rcases hu with ⟨h1, _⟩ | ⟨h1, _⟩
        · rw [h1]; exact le_of_lt he
        · rw [h1]
      have hue : (execRecord c (envs i) st rt).epsilonUsed ≤ e := by
        rcases hu with ⟨h1, _⟩ | ⟨h1, _⟩
        · rw [h1]
        · rw [h1]; exact le_of_lt he
      obtain ⟨ih1, ih2, ih3⟩ := ih (i + 1) (spent + (execRecord c (envs i) st rt).epsilonUsed)
        (fun c2 hc2 => heps c2 (by simp [hc2])) (add_nonneg h0 hu0)
        (le_trans (add_le_add_left hue spent) hspB)
      rw [qcRun_cons_exec st rt e B envs c rest i spent hb]
      refine ⟨?_, ih2, ?_⟩
      · simp only [List.map_cons, List.sum_cons]
        rw [ih1]; ring
      · intro p hp
        rcases List.mem_cons.mp hp with hp1 | hp2
        · subst hp1
          refine ⟨hu0, fun hne => ?_⟩
          rcases hu with ⟨h1, h2⟩ | ⟨h1, _⟩
          · exact ⟨h2, h1⟩
          · exact absurd h1 hne
        · exact ih3 p hp2

theorem buildRegistry_eps (cqlFiles : List (String × String)) (e : ℚ) :
    ∀ c ∈ buildRegistry cqlFiles e, Check.epsilon c = e := by
  intro c hc
  unfold buildRegistry at hc
  rcases List.mem_append.mp hc with h1 | h2
  · obtain ⟨p, _, rfl⟩ := List.mem_map.mp h1; rfl
  · simp only [List.mem_cons, List.not_mem_nil, or_false] at h2
    rcases h2 with rfl | rfl | rfl | rfl <;> rfl

/-- C1: for every run of `get_qc_results` with per-query epsilon `e > 0`
and total budget `B ≥ e` (and, as in every actual run, distinct check
names) and every sequence of per-check outcomes, the cumulative spend is
the sum of the recorded non-negative `epsilonUsed` values (hence
monotonically non-decreasing along the run), a nonzero `epsilonUsed` only
comes from a check that executed and succeeded (no error, charged exactly
`e`), and the final total — the sum of `epsilonUsed` across all completed
checks in the report — never exceeds `B`. -/
theorem get_qc_results_budget_invariant (cqlFiles : List (String × String)) (envs : ℕ → Env)
    (st rt : String) (e B : ℚ) (he : 0 < e) (heB : e ≤ B)
    (hnd : ((buildRegistry cqlFiles e).map Check.name).Nodup) :
    (get_qc_results cqlFiles envs st rt e B).2 =
        (((get_qc_results cqlFiles envs st rt e B).1).map (fun p => p.2.epsilonUsed)).sum ∧
    (get_qc_results cqlFiles envs st rt e B).2 ≤ B ∧
    ∀ p ∈ (get_qc_results cqlFiles envs st rt e B).1,
      0 ≤ p.2.epsilonUsed ∧
        (p.2.epsilonUsed ≠ 0 → p.2.error = none ∧ p.2.epsilonUsed = e) := by
  have hbridge := qcLoop_eq_qcRun st rt e B envs (buildRegistry cqlFiles e) 0 0 [] hnd (by simp)
  unfold get_qc_results
  rw [hbridge]
  simp only [List.nil_append]
  obtain ⟨h1, h2, h3⟩ := qcRun_budget st rt e B envs he (buildRegistry cqlFiles e) 0 0
    (buildRegistry_eps cqlFiles e) (le_refl 0) (le_trans (le_of_lt he) heB)
  exact ⟨by rw [h1, zero_add], h2, h3⟩

/-- C1 (witness: no CQL files, benign environment, `e = 1`, `B = 10`). -/
theorem get_qc_results_budget_invariant_witness :
    (get_qc_results [] (fun _ => env0) "Patient" "population" 1 10).2 =
        (((get_qc_results [] (fun _ => env0) "Patient" "population" 1 10).1).map
          (fun p => p.2.epsilonUsed)).sum ∧
    (get_qc_results [] (fun _ => env0) "Patient" "population" 1 10).2 ≤ 10 ∧
    ∀ p ∈ (get_qc_results [] (fun _ => env0) "Patient" "population" 1 10).1,
      0 ≤ p.2.epsilonUsed ∧
        (p.2.epsilonUsed ≠ 0 → p.2.error = none ∧ p.2.epsilonUsed = 1) :=
  get_qc_results_budget_invariant [] (fun _ => env0) "Patient" "population" 1 10
    (by norm_num) (by norm_num) (by decide)

theorem executeCheck_of_interior_err (c : Check) (env : Env) (st rt : String) (pe : PyError)
    (h : checkInterior c env rt = .error pe) : executeCheck c env st rt = errorResult pe := by
  unfold executeCheck
  rw [h]

/-- C4: every exception raised inside a check's `execute` is caught and
converted into a `CheckResult` carrying an error message and
`epsilonUsed = 0`; the orchestrator receives an ordinary result (no
exception crosses its boundary — `executeCheck` is total), and the report
still contains an entry for every check in the registry, so every
subsequent check still executes. -/
theorem execute_contains_failures (c : Check) (env : Env) (st rt : String) (pe : PyError)
    (h : checkInterior c env rt = .error pe) :
    executeCheck c env st rt = errorResult pe ∧
    (executeCheck c env st rt).error = some pe.message ∧
    (executeCheck c env st rt).epsilonUsed = 0 ∧
    ∀ (st2 rt2 : String) (eps total : ℚ) (envs : ℕ → Env) (l : List Check) (i : ℕ)
      (spent : ℚ) (acc : List (String × CheckResult)),
      (l.map Check.name).Nodup →
      (∀ n ∈ l.map Check.name, n ∉ acc.map Prod.fst) →
      ((qcLoop st2 rt2 eps total envs l i spent acc).1).map Prod.fst =
        acc.map Prod.fst ++ l.map Check.name := by
  have h1 := executeCheck_of_interior_err c env st rt pe h
  refine ⟨h1, by rw [h1, errorResult_error], by rw [h1, errorResult_epsilonUsed], ?_⟩
  intro st2 rt2 eps total envs l i spent acc hnd hdisj
  rw [qcLoop_eq_qcRun st2 rt2 eps total envs l i spent acc hnd hdisj]
  simp [qcRun_fst]

/-- C4 (witness: a CQL check whose Library POST raises a transport
error). -/
theorem execute_contains_failures_witness :
    executeCheck (.cql "a.cql" "pa" 1) envNetFail "Patient" "population" =
      errorResult (.remoteError "connection refused") :=
  (execute_contains_failures (.cql "a.cql" "pa" 1) envNetFail "Patient" "population"
    (.remoteError "connection refused") rfl).1

/-- The loop's output only depends on the environments at positions from
the current one onwards. -/
theorem qcLoop_envs_congr (st rt : String) (eps total : ℚ) :
    ∀ (l : List Check) (i : ℕ) (spent : ℚ) (acc : List (String × CheckResult))
      (envs envs2 : ℕ → Env),
      (∀ j, i ≤ j → envs j = envs2 j) →
      qcLoop st rt eps total envs l i spent acc =
        qcLoop st rt eps total envs2 l i spent acc := by
  intro l
  induction l with
  | nil => intro i spent acc envs envs2 _; rfl
  | cons c rest ih =>
    intro i spent acc envs envs2 hagree
    by_cases hb : spent + eps > total
    · show qcLoop st rt eps total envs (c :: rest) i spent acc = _
      simp only [qcLoop, if_pos hb]
      exact ih (i + 1) spent _ envs envs2
        (fun j hj => hagree j (le_trans (Nat.le_succ i) hj))
    · show qcLoop st rt eps total envs (c :: rest) i spent acc = _
      simp only [qcLoop, if_neg hb]
      rw [hagree i (le_refl i)]
      exact ih (i + 1) _ _ envs envs2
        (fun j hj => hagree j (le_trans (Nat.le_succ i) hj))

/-- C5: a check denied admission (budget would be exceeded) is recorded
as the skip result — `epsilonUsed = 0` with the explicit budget-exceeded
error, the running total unchanged — and its `execute` is never invoked:
the run's outcome is invariant under replacing that check's environment
by any other. -/
theorem denied_check_recorded_not_executed (st rt : String) (eps total spent : ℚ)
    (envs : ℕ → Env) (c : Check) (rest : List Check) (i : ℕ)
    (acc : List (String × CheckResult)) (h : spent + eps > total) :
    qcLoop st rt eps total envs (c :: rest) i spent acc =
      qcLoop st rt eps total envs rest (i + 1) spent (dictInsert acc c.name skipResult) ∧
    skipResult.epsilonUsed = 0 ∧
    skipResult.error = some "Exceeded total epsilon budget" ∧
    ∀ env2 : Env,
      qcLoop st rt eps total (Function.update envs i env2) (c :: rest) i spent acc =
        qcLoop st rt eps total envs (c :: rest) i spent acc := by
  refine ⟨by simp only [qcLoop, if_pos h], rfl, rfl, ?_⟩
  intro env2
  show qcLoop st rt eps total (Function.update envs i env2) (c :: rest) i spent acc = _
  simp only [qcLoop, if_pos h]
  exact qcLoop_envs_congr st rt eps total rest (i + 1) spent _ _ envs
    (fun j hj => Function.update_noteq (by omega) env2 envs)

/-- C5 (witness: `spent = 2`, `eps = 1`, `total = 2`). -/
theorem denied_check_recorded_not_executed_witness :
    qcLoop "Patient" "population" 1 2 (fun _ => env0) [Check.invalidConditionICD 1] 0 2 [] =
      qcLoop "Patient" "population" 1 2 (fun _ => env0) [] 1 2
        (dictInsert [] (Check.invalidConditionICD 1).name skipResult) :=
  (denied_check_recorded_not_executed "Patient" "population" 1 2 2 (fun _ => env0)
    (Check.invalidConditionICD 1) [] 0 [] (by norm_num)).1

/-- C6: with total budget 2, per-query epsilon 1 and three registered
checks whose executions all succeed, the first two complete (each charged
1, cumulative spent 2) and the third is rejected with the budget-exceeded
error and `epsilonUsed = 0`. -/
theorem three_checks_budget_two :
    ((qcLoop "Patient" "population" 1 2 (fun _ => env0)
        [Check.cql "a.cql" "pa" 1, Check.cql "b.cql" "pb" 1, Check.cql "c.cql" "pc" 1]
        0 0 []).1).map (fun p => (p.1, p.2.epsilonUsed, p.2.error)) =
      [("a.cql", (1 : ℚ), (none : Option String)), ("b.cql", 1, none),
       ("c.cql", 0, some "Exceeded total epsilon budget")] ∧
    (qcLoop "Patient" "population" 1 2 (fun _ => env0)
        [Check.cql "a.cql" "pa" 1, Check.cql "b.cql" "pb" 1, Check.cql "c.cql" "pc" 1]
        0 0 []).2 = 2 := by
  have hx : ∀ fn path : String, executeCheck (.cql fn path 1) env0 "Patient" "population" =
      { count := some 0, countWithDP := some 0, listReference := none, patientIds := none,
        epsilonUsed := 1, description := none, error := none } := by
    intro fn path
    norm_num [executeCheck, checkInterior, cqlInterior, env0, pyFirst, emptyGroup,
      emptyPopulation, add_laplace_noise, np_random_laplace, pyRound, Except.bind]
    simp
  have hu : ∀ fn path : String,
      (execRecord (.cql fn path 1) env0 "Patient" "population").epsilonUsed = 1 := by
    intro fn path; rw [execRecord_epsilonUsed, hx]
  have herr : ∀ fn path : String,
      (execRecord (.cql fn path 1) env0 "Patient" "population").error = none := by
    intro fn path; rw [execRecord_error, hx]
  have h1 : ¬((0 : ℚ) + 1 > 2) := by norm_num
  have h2 : ¬((0 : ℚ) + 1 + 1 > 2) := by norm_num
  have h3 : (0 : ℚ) + 1 + 1 + 1 > 2 := by norm_num
  have hnd : (([Check.cql "a.cql" "pa" 1, Check.cql "b.cql" "pb" 1,
      Check.cql "c.cql" "pc" 1].map Check.name)).Nodup := by decide
  rw [qcLoop_eq_qcRun "Patient" "population" 1 2 (fun _ => env0) _ 0 0 [] hnd (by simp)]
  rw [qcRun_cons_exec _ _ _ _ _ _ _ _ _ h1]
  simp only [hu]
  rw [qcRun_cons_exec _ _ _ _ _ _ _ _ _ h2]
  simp only [hu]
  rw [qcRun_cons_skip _ _ _ _ _ _ _ _ _ h3, qcRun_nil]
  refine ⟨?_, by norm_num⟩
  simp [Check.name, hu, herr, skipResult]

/-- C7: the registry is the discovered CQL checks in discovery order
followed by the four native checks in declaration order, and the run
processes (and records) the checks in exactly this order: the report keys
are the CQL filenames followed by `uniqness-1`, `validity-1`,
`validity-2`, `timeliness-1`. -/
theorem registry_discovery_then_native_order (cqlFiles : List (String × String))
    (envs : ℕ → Env) (st rt : String) (e B : ℚ)
    (hnd : ((buildRegistry cqlFiles e).map Check.name).Nodup) :
    ((get_qc_results cqlFiles envs st rt e B).1).map Prod.fst =
      cqlFiles.map Prod.fst ++
        ["uniqness-1", "validity-1", "validity-2", "timeliness-1"] := by
  unfold get_qc_results
  rw [qcLoop_eq_qcRun st rt e B envs (buildRegistry cqlFiles e) 0 0 [] hnd (by simp)]
  simp only [List.nil_append]
  rw [qcRun_fst]
  unfold buildRegistry
  simp [Check.name, List.map_map, Function.comp]

/-- C7 (witness: two CQL files). -/
theorem registry_discovery_then_native_order_witness :
    ((get_qc_results [("a.cql", "pa"), ("b.cql", "pb")] (fun _ => env0)
        "Patient" "population" 1 10).1).map Prod.fst =
      [(("a.cql" : String), ("pa" : String)), ("b.cql", "pb")].map Prod.fst ++
        ["uniqness-1", "validity-1", "validity-2", "timeliness-1"] :=
  registry_discovery_then_native_order [("a.cql", "pa"), ("b.cql", "pb")] (fun _ => env0)
    "Patient" "population" 1 10 (by decide)

/-- Every recorded entry is either a completed result (no error key, raw
count present) or carries an explicit error message. -/
theorem qcRun_entries (st rt : String) (eps total : ℚ) (envs : ℕ → Env) :
    ∀ (l : List Check) (i : ℕ) (spent : ℚ),
      ∀ p ∈ (qcRun st rt eps total envs l i spent).1,
        (p.2.error = none ∧ ∃ n, p.2.count = some n) ∨ ∃ m, p.2.error = some m := by
  intro l
  induction l with
  | nil => intro i spent p hp; simp [qcRun_nil] at hp
  | cons c rest ih =>
    intro i spent
    by_cases hb : spent + eps > total
    · rw [qcRun_cons_skip st rt eps total envs c rest i spent hb]
      intro p hp
      rcases List.mem_cons.mp hp with rfl | hp2
      · exact .inr ⟨"Exceeded total epsilon budget", rfl⟩
      · exact ih (i + 1) spent p hp2
    · rw [qcRun_cons_exec st rt eps total envs c rest i spent hb]
      intro p hp
      rcases List.mem_cons.mp hp with rfl | hp2
      · rcases executeCheck_cases c (envs i) st rt with hsucc | ⟨pe, herr⟩
        · refine .inl ⟨?_, ?_⟩
          · show (execRecord c (envs i) st rt).error = none
            rw [execRecord_error, hsucc.1]
          · obtain ⟨n, hn⟩ := hsucc.2.1
            refine ⟨n, ?_⟩
            show (execRecord c (envs i) st rt).count = some n
            rw [execRecord_count, hn]
        · refine .inr ⟨pe.message, ?_⟩
          show (execRecord c (envs i) st rt).error = some pe.message
          rw [execRecord_error, herr, errorResult_error]
      · exact ih (i + 1) _ p hp2

/-- C8: the final report holds exactly one entry per registered check,
keyed by the check's name in processing order, and every entry is either
a successful result or carries an explicit error field — no registered
check is silently missing. -/
theorem report_enumerates_every_check (cqlFiles : List (String × String)) (envs : ℕ → Env)
    (st rt : String) (e B : ℚ)
    (hnd : ((buildRegistry cqlFiles e).map Check.name).Nodup) :
    ((get_qc_results cqlFiles envs st rt e B).1).map Prod.fst =
      (buildRegistry cqlFiles e).map Check.name ∧
    ∀ p ∈ (get_qc_results cqlFiles envs st rt e B).1,
      (p.2.error = none ∧ ∃ n, p.2.count = some n) ∨ ∃ m, p.2.error = some m := by
  unfold get_qc_results
  rw [qcLoop_eq_qcRun st rt e B envs (buildRegistry cqlFiles e) 0 0 [] hnd (by simp)]
  simp only [List.nil_append]
  exact ⟨qcRun_fst st rt e B envs (buildRegistry cqlFiles e) 0 0,
    qcRun_entries st rt e B envs (buildRegistry cqlFiles e) 0 0⟩

/-- C8 (witness: no CQL files, benign environment). -/
theorem report_enumerates_every_check_witness :
    ((get_qc_results [] (fun _ => env0) "Patient" "population" 1 10).1).map Prod.fst =
      (buildRegistry [] 1).map Check.name ∧
    ∀ p ∈ (get_qc_results [] (fun _ => env0) "Patient" "population" 1 10).1,
      (p.2.error = none ∧ ∃ n, p.2.count = some n) ∨ ∃ m, p.2.error = some m :=
  report_enumerates_every_check [] (fun _ => env0) "Patient" "population" 1 10 (by decide)

/-- C9 (counterexample): a successful `subject-list` execution of
`InvalidConditionICDCheck` stores the literal string `"[]"` under
`patientIds` — not a concrete list of subject identifiers. -/
theorem native_subject_list_literal_string :
    (executeCheck (.invalidConditionICD 1) env0 "Patient" "subject-list").error = none ∧
    (executeCheck (.invalidConditionICD 1) env0 "Patient" "subject-list").patientIds =
      some (.literalString "[]") ∧
    isIdList (executeCheck (.invalidConditionICD 1) env0 "Patient" "subject-list").patientIds =
      false := by
  have hx : executeCheck (.invalidConditionICD 1) env0 "Patient" "subject-list" =
      { count := some 0, countWithDP := some 0, listReference := none,
        patientIds := some (.literalString "[]"), epsilonUsed := 1,
        description := none, error := none } := by
    norm_num [executeCheck, checkInterior, condInterior, env0, collectInvalidCondition,
      add_laplace_noise, np_random_laplace, pyRound, Except.bind]
  rw [hx]
  exact ⟨rfl, rfl, rfl⟩

/-- C9 (amended): in `population` report mode no result ever carries a
`patientIds` field; under `subject-list` mode a successful execution of
the CQL and duplicate-identifier checks carries an actual list of subject
identifiers, while the two ICD-validity checks and the staleness check
carry the literal string `"[]"` instead. -/
theorem report_mode_subject_ids (c : Check) (env : Env) (st : String) :
    (executeCheck c env st "population").patientIds = none ∧
    ((executeCheck c env st "subject-list").error = none →
      PatientIdsShape c "subject-list" (executeCheck c env st "subject-list")) := by
  constructor
  · rcases executeCheck_cases c env st "population" with hsucc | ⟨pe, herr⟩
    · have hshape := hsucc.2.2.2.2
      unfold PatientIdsShape at hshape
      rw [if_neg (by decide : ¬("population" = "subject-list"))] at hshape
      exact hshape
    · rw [herr, errorResult_patientIds]
  · intro herrnone
    rcases executeCheck_cases c env st "subject-list" with hsucc | ⟨pe, herr⟩
    · exact hsucc.2.2.2.2
    · rw [herr, errorResult_error] at herrnone
      exact absurd herrnone (Option.some_ne_none _)

/-- C9 (amended, witness: the condition-validity check under both report
modes in a benign environment). -/
theorem report_mode_subject_ids_witness :
    (executeCheck (.invalidConditionICD 1) env0 "Patient" "population").patientIds = none ∧
    PatientIdsShape (.invalidConditionICD 1) "subject-list"
      (executeCheck (.invalidConditionICD 1) env0 "Patient" "subject-list") := by
  have h := report_mode_subject_ids (.invalidConditionICD 1) env0 "Patient"
  refine ⟨h.1, h.2 ?_⟩
  norm_num [executeCheck, checkInterior, condInterior, env0, collectInvalidCondition,
    add_laplace_noise, np_random_laplace, pyRound, Except.bind]

/-! ## C10: the missing `re` import -/

theorem checkCodings_err_only (find : String → Bool) :
    ∀ (cs : List Coding) (pe : PyError),
      checkCodings find cs = .error pe → pe = .nameError "re" := by
  intro cs
  induction cs with
  | nil => intro pe h; simp [checkCodings] at h
  | cons c rest ih =>
    intro pe h
    unfold checkCodings at h
    split at h
    · split at h
      · simp at h
      · exact ih pe h
    · split at h
      · split at h
        · injection h with h2
          exact h2.symm
        · exact ih pe h
      · exact ih pe h

/-- If some coding of the list has the ICD-9-cm system and a truthy code,
and no earlier coding validates as ICD-10, the inner loop raises
`NameError` on `re`. -/
theorem checkCodings_icd9_nameError (find : String → Bool) :
    ∀ (cs : List Coding) (j : ℕ) (hj : j < cs.length),
      (cs.get ⟨j, hj⟩).system = some icd9System →
      truthyOpt (cs.get ⟨j, hj⟩).code = true →
      (∀ (k : ℕ) (hk : k < cs.length), k < j →
        ¬codingIcd10Valid find (cs.get ⟨k, hk⟩)) →
      checkCodings find cs = .error (.nameError "re") := by
  intro cs
  induction cs with
  | nil => intro j hj; exact absurd hj (by simp)
  | cons c rest ih =>
    intro j hj hsys hcode hprev
    rcases j with _ | n
    · have hsysc : c.system = some icd9System := hsys
      have hcodec : truthyOpt c.code = true := hcode
      show checkCodings find (c :: rest) = _
      unfold checkCodings
      rw [if_neg (by rw [hsysc]; decide), if_pos hsysc, if_pos hcodec]
    · have hn : n < rest.length := by
        simpa [Nat.succ_lt_succ_iff] using hj
      have hsys2 : (rest.get ⟨n, hn⟩).system = some icd9System := hsys
      have hcode2 : truthyOpt (rest.get ⟨n, hn⟩).code = true := hcode
      have hprev0 : ¬codingIcd10Valid find c :=
        hprev 0 (by simp) (Nat.succ_pos n)
      have hprev2 : ∀ (k : ℕ) (hk : k < rest.length), k < n →
          ¬codingIcd10Valid find (rest.get ⟨k, hk⟩) := by
        intro k hk hkn
        exact hprev (k + 1) (by simpa [Nat.succ_lt_succ_iff] using hk)
          (Nat.succ_lt_succ hkn)
      have htail := ih n hn hsys2 hcode2 hprev2
      show checkCodings find (c :: rest) = _
      unfold checkCodings
      by_cases hA : c.system = some icd10System ∨ c.system = some icd10cmSystem
      · rw [if_pos hA]
        by_cases hB : (truthyOpt c.code && find (c.code.getD "")) = true
        · exact absurd ⟨hA, hB⟩ hprev0
        · rw [if_neg hB]
          exact htail
      · rw [if_neg hA]
        by_cases hC : c.system = some icd9System
        · rw [if_pos hC]
          by_cases hD : truthyOpt c.code = true
          · rw [if_pos hD]
          · rw [if_neg hD]
            exact htail
        · rw [if_neg hC]
          exact htail

theorem collectInvalidCondition_err_only (find : String → Bool) :
    ∀ (l : List ConditionRes) (pe : PyError),
      collectInvalidCondition find l = .error pe → pe = .nameError "re" := by
  intro l
  induction l with
  | nil => intro pe h; simp [collectInvalidCondition] at h
  | cons c rest ih =>
    intro pe h
    unfold collectInvalidCondition at h
    cases hcc : checkCodings find c.codings with
    | error e1 =>
      rw [hcc, bind_error] at h
      injection h with h2
      exact h2 ▸ checkCodings_err_only find c.codings e1 hcc
    | ok valid =>
      rw [hcc, bind_ok] at h
      cases hrest : collectInvalidCondition find rest with
      | error e2 =>
        rw [hrest, bind_error] at h
        injection h with h2
        exact h2 ▸ ih e2 hrest
      | ok tl =>
        rw [hrest, bind_ok] at h
        simp at h

theorem collectInvalidCondition_err_of_mem (find : String → Bool) :
    ∀ (l : List ConditionRes) (c : ConditionRes), c ∈ l →
      (∃ pe, checkCodings find c.codings = .error pe) →
      ∃ pe2, collectInvalidCondition find l = .error pe2 := by
  intro l
  induction l with
  | nil => intro c hc; exact absurd hc (by simp)
  | cons c0 rest ih =>
    intro c hc hex
    rcases List.mem_cons.mp hc with rfl | hmem
    · obtain ⟨pe, hpe⟩ := hex
      refine ⟨pe, ?_⟩
      unfold collectInvalidCondition
      rw [hpe, bind_error]
    · unfold collectInvalidCondition
      cases hcc : checkCodings find c0.codings with
      | error e1 => exact ⟨e1, by rw [bind_error]⟩
      | ok v =>
        rw [bind_ok]
        obtain ⟨pe2, hrest⟩ := ih c hmem hex
        exact ⟨pe2, by rw [hrest, bind_error]⟩

theorem condInterior_err_of_collect (eps : ℚ) (env : Env) (rt : String)
    (conds : List ConditionRes) (hfetch : env.fetchConditions = .ok conds)
    (pe : PyError) (hcol : collectInvalidCondition env.icd10find conds = .error pe) :
    condInterior eps env rt = .error pe := by
  unfold condInterior
  rw [hfetch, bind_ok, hcol, bind_error]

theorem processSpecimen_err (find : String → Bool) (s : SpecimenRes) (ext : FhirExtension)
    (hfind : s.extensions.find? (fun e2 => e2.url == some sampleDiagnosisUrl) = some ext)
    (c0 : Coding) (restc : List Coding) (hcod : ext.codings = some (c0 :: restc))
    (hsys : c0.system = some icd9System) (hcode : truthyOpt c0.code = true) :
    processSpecimen find s = .error (.nameError "re") := by
  simp only [processSpecimen, hfind, hcod, pyFirst, bind_ok]
  unfold specimenCodingValid
  rw [if_neg (by rw [hsys]; decide), if_pos hsys, if_pos hcode, bind_error]

theorem collectInvalidSpecimen_err_of_mem (find : String → Bool) :
    ∀ (l : List SpecimenRes) (s : SpecimenRes), s ∈ l →
      (∃ pe, processSpecimen find s = .error pe) →
      ∃ pe2, collectInvalidSpecimen find l = .error pe2 := by
  intro l
  induction l with
  | nil => intro s hs; exact absurd hs (by simp)
  | cons s0 rest ih =>
    intro s hs hex
    rcases List.mem_cons.mp hs with rfl | hmem
    · obtain ⟨pe, hpe⟩ := hex
      refine ⟨pe, ?_⟩
      unfold collectInvalidSpecimen
      rw [hpe, bind_error]
    · unfold collectInvalidSpecimen
      cases hps : processSpecimen find s0 with
      | error e1 => exact ⟨e1, by rw [bind_error]⟩
      | ok v =>
        rw [bind_ok]
        obtain ⟨pe2, hrest⟩ := ih s hmem hex
        exact ⟨pe2, by rw [hrest, bind_error]⟩

theorem specInterior_err_of_collect (eps : ℚ) (env : Env) (rt : String)
    (specs : List SpecimenRes) (hfetch : env.fetchSpecimens = .ok specs)
    (pe : PyError) (hcol : collectInvalidSpecimen env.icd10find specs = .error pe) :
    specInterior eps env rt = .error pe := by
  unfold specInterior
  rw [hfetch, bind_ok, hcol, bind_error]

/-- C10: `report_utils.py` never imports `re`, so whenever the fetched
resources contain a Condition with an ICD-9-cm coding carrying a truthy
code, no earlier coding of which already validated as ICD-10 (resp. a
Specimen whose SampleDiagnosis extension's first coding is ICD-9-cm with
a truthy code), the execution reaches the `re.match` call, raises
`NameError`, and the check returns an error result with
`epsilonUsed = 0` and no count. -/
theorem missing_re_import_causes_error (env : Env) (st rt : String) (eps : ℚ) :
    (∀ (conds : List ConditionRes), env.fetchConditions = .ok conds →
      ∀ c ∈ conds, ∀ (j : ℕ) (hj : j < c.codings.length),
        (c.codings.get ⟨j, hj⟩).system = some icd9System →
        truthyOpt (c.codings.get ⟨j, hj⟩).code = true →
        (∀ (k : ℕ) (hk : k < c.codings.length), k < j →
          ¬codingIcd10Valid env.icd10find (c.codings.get ⟨k, hk⟩)) →
        (executeCheck (.invalidConditionICD eps) env st rt).error =
            some "name re is not defined" ∧
          (executeCheck (.invalidConditionICD eps) env st rt).epsilonUsed = 0 ∧
          (executeCheck (.invalidConditionICD eps) env st rt).count = none) ∧
    (∀ (specs : List SpecimenRes), env.fetchSpecimens = .ok specs →
      ∀ s ∈ specs, ∀ ext : FhirExtension,
        s.extensions.find? (fun e2 => e2.url == some sampleDiagnosisUrl) = some ext →
        ∀ (c0 : Coding) (restc : List Coding), ext.codings = some (c0 :: restc) →
          c0.system = some icd9System → truthyOpt c0.code = true →
          (∃ m, (executeCheck (.invalidSpecimenICD eps) env st rt).error = some m) ∧
            (executeCheck (.invalidSpecimenICD eps) env st rt).epsilonUsed = 0 ∧
            (executeCheck (.invalidSpecimenICD eps) env st rt).count = none) := by
  constructor
  · intro conds hfetch c hc j hj hsys hcode hprev
    have hcc : checkCodings env.icd10find c.codings = .error (.nameError "re") :=
      checkCodings_icd9_nameError env.icd10find c.codings j hj hsys hcode hprev
    obtain ⟨pe2, hcol⟩ :=
      collectInvalidCondition_err_of_mem env.icd10find conds c hc ⟨_, hcc⟩
    have hpe2 : pe2 = .nameError "re" :=
      collectInvalidCondition_err_only env.icd10find conds pe2 hcol
    subst hpe2
    have hx := executeCheck_of_interior_err (.invalidConditionICD eps) env st rt _
      (show checkInterior (.invalidConditionICD eps) env rt = .error (.nameError "re") from
        condInterior_err_of_collect eps env rt conds hfetch _ hcol)
    rw [hx]
    exact ⟨rfl, rfl, rfl⟩
  · intro specs hfetch s hs ext hfind c0 restc hcod hsys hcode
    have hps : processSpecimen env.icd10find s = .error (.nameError "re") :=
      processSpecimen_err env.icd10find s ext hfind c0 restc hcod hsys hcode
    obtain ⟨pe2, hcol⟩ :=
      collectInvalidSpecimen_err_of_mem env.icd10find specs s hs ⟨_, hps⟩
    have hx := executeCheck_of_interior_err (.invalidSpecimenICD eps) env st rt pe2
      (show checkInterior (.invalidSpecimenICD eps) env rt = .error pe2 from
        specInterior_err_of_collect eps env rt specs hfetch pe2 hcol)
    rw [hx]
    exact ⟨⟨pe2.message, rfl⟩, rfl, rfl⟩

/-- C10 (witness: `envIcd9`, one Condition and one Specimen each carrying
an ICD-9-cm coding with code `250.0`). -/
theorem missing_re_import_causes_error_witness :
    (executeCheck (.invalidConditionICD 1) envIcd9 "Patient" "population").error =
        some "name re is not defined" ∧
    (executeCheck (.invalidConditionICD 1) envIcd9 "Patient" "population").epsilonUsed = 0 ∧
    (∃ m, (executeCheck (.invalidSpecimenICD 1) envIcd9 "Patient" "population").error =
        some m) ∧
    (executeCheck (.invalidSpecimenICD 1) envIcd9 "Patient" "population").epsilonUsed = 0 := by
  have h := missing_re_import_causes_error envIcd9 "Patient" "population" 1
  have hcond := h.1
    [{ codings := [{ system := some icd9System, code := some "250.0" }],
       subjectRef := some "Patient/p1" }] rfl
    { codings := [{ system := some icd9System, code := some "250.0" }],
      subjectRef := some "Patient/p1" } (by simp) 0 (by decide) rfl (by decide)
    (fun k hk hk0 => absurd hk0 (Nat.not_lt_zero k))
  have hspec := h.2
    [{ extensions :=
         [{ url := some sampleDiagnosisUrl,
            codings := some [{ system := some icd9System, code := some "250.0" }] }],
       subjectRef := some "Patient/p1" }] rfl
    { extensions :=
        [{ url := some sampleDiagnosisUrl,
           codings := some [{ system := some icd9System, code := some "250.0" }] }],
      subjectRef := some "Patient/p1" } (by simp)
    { url := some sampleDiagnosisUrl,
      codings := some [{ system := some icd9System, code := some "250.0" }] }
    (by decide) { system := some icd9System, code := some "250.0" } [] rfl rfl (by decide)
  exact ⟨hcond.1, hcond.2.1, hspec.1, hspec.2.1⟩

end QC
